import Mathlib

/-!
A shallow embedding of the social-deduction simulation engine (`game.py`) and
the group bookkeeping of its agent policy (`fuzzer.py`), together with
theorems that settle the specification claims about it.

Players are Python objects that hash by their (unique) name, so the embedding
identifies every player, node and task reference by name.  Python's in-place
object mutation becomes name-keyed functional update of the roster.  Fallible
code paths (index errors on empty lists, lookups of missing keys) are embedded
with `Except Unit`, an `Except.error ()` standing for a raised exception.
Machine integers are `Int`, dislike weights (Python floats that only ever pass
through `min (d + 0.15) 0.9`, an order-theoretic cap) are `Rat`.
The sabotage tables of the source are never read or written by any operation
modelled here and carry no information, so they are omitted from the state.
-/

namespace Amogus

inductive PlayerState
  | IDLE
  | WORKING
  | FOLLOWING
  | DEAD
  | FIX_SABOTAGE
deriving DecidableEq, Repr

inductive TaskLength
  | SHORT
  | MEDIUM
  | LONG
deriving DecidableEq, Repr

def TASK_TO_TICKS : TaskLength → Int
  | TaskLength.SHORT => 1
  | TaskLength.MEDIUM => 2
  | TaskLength.LONG => 3

def DELTA_DISLIKE : Rat := 15 / 100

def MAX_DISLIKE : Rat := 9 / 10

def KILL_COOLDOWN_TICKS : Int := 5

def VENT_COOLDOWN_TICKS : Int := 5

def SUS_WINDOW : Int := 2

structure Task where
  name : String
  length : TaskLength
  visual : Bool
  location : String
  next_task : Option (List String)
deriving DecidableEq, Repr

structure Player where
  name : String
  imposter : Bool
  tasks : List Task
  state : PlayerState
  current_location : String
  current_task : Option Task
  ticks_elapsed : Int
  dislike_visited_node : List (String × Rat)
  following_player : Option String
  player_following : List String
  vouch_history : List String
  kill_cooldown : Int
  vent_cooldown : Int
  voted_out : Bool
  dead_body_reported : Bool
deriving DecidableEq, Repr

structure Node where
  name : String
  players : List String
  vent : Bool
deriving DecidableEq, Repr

/-- `MovementHistory(tick, witness, subject, previous, location)` of the
source; the fields record whatever the constructor call site passes
positionally. -/
structure MovementHistory where
  tick : Int
  witness : String
  subject : String
  previous : String
  location : String
deriving DecidableEq, Repr

structure KillWitnessHistory where
  tick : Int
  killer : String
  victim : String
  witnesses : List String
deriving DecidableEq, Repr

inductive Action
  | none
  | move (dest : String)
  | start_task (task : Task)
  | work_task_tick
  | kill (target : String) (self_report : Bool) (self_report_witness : Option String)
      (witness_reporter : Option String)
  | report (dead_bodies : Option (List String)) (witnessed : Option String)
  | set_state (new_state : PlayerState)
  | follow (leader : Option String)
deriving DecidableEq, Repr

/-- An action-history entry holds either the proposed action or the free-text
outcome line written by `_log_report_outcome`, kept structured here. -/
inductive LogEntry
  | act (a : Action)
  | outcome (reporter : String) (witnessed : Option String)
      (dead_bodies : Option (List String)) (voted_out : Option String)
deriving DecidableEq, Repr

structure Game where
  nodes : List Node
  edges : List (String × List (String × Bool))
  tasks : List (String × Task)
  players : List Player
  movement_history : List MovementHistory
  kill_witness_history : List KillWitnessHistory
  tick_counter : Int
  action_history : List (Int × String × LogEntry)
deriving DecidableEq, Repr

/-! ### Name-keyed access, standing for Python's shared object references -/

def find_player (g : Game) (name : String) : Option Player :=
  g.players.find? (fun p => decide (p.name = name))

def update_player (g : Game) (name : String) (f : Player → Player) : Game :=
  { g with players := g.players.map (fun p => if p.name = name then f p else p) }

def get_node (g : Game) (name : String) : Option Node :=
  g.nodes.find? (fun n => decide (n.name = name))

def update_node_players (g : Game) (name : String) (f : List String → List String) : Game :=
  { g with nodes := g.nodes.map (fun n => if n.name = name then { n with players := f n.players } else n) }

def lookup_edge (g : Game) (src dst : String) : Option Bool :=
  match g.edges.find? (fun e => decide (e.1 = src)) with
  | Option.none => Option.none
  | Option.some e => (e.2.find? (fun d => decide (d.1 = dst))).map (fun d => d.2)

def lookup_task (g : Game) (name : String) : Option Task :=
  (g.tasks.find? (fun t => decide (t.1 = name))).map (fun t => t.2)

def player_alive (g : Game) (name : String) : Bool :=
  match find_player g name with
  | Option.some p => decide (p.state ≠ PlayerState.DEAD)
  | Option.none => false

def is_imposter (g : Game) (name : String) : Bool :=
  match find_player g name with
  | Option.some p => p.imposter
  | Option.none => false

def following_of (g : Game) (name : String) : Option String :=
  match find_player g name with
  | Option.some p => p.following_player
  | Option.none => Option.none

def followers_of (g : Game) (name : String) : List String :=
  match find_player g name with
  | Option.some p => p.player_following
  | Option.none => []

/-- The observable elimination status of a player: lifecycle state and the
voted-out flag. -/
def status_of (g : Game) (name : String) : Option (PlayerState × Bool) :=
  (find_player g name).map (fun p => (p.state, p.voted_out))

/-- Association-list update mirroring Python dict assignment `d[k] = v`. -/
def set_assoc (l : List (String × Rat)) (k : String) (v : Rat) : List (String × Rat) :=
  if l.any (fun x => decide (x.1 = k)) then
    l.map (fun x => if x.1 = k then (k, v) else x)
  else
    l ++ [(k, v)]

/-- `player.dislike_visited_node.get(name, 0.0)` on the defaulting dict. -/
def lookup_dislike (l : List (String × Rat)) (k : String) : Rat :=
  match l.find? (fun x => decide (x.1 = k)) with
  | Option.some x => x.2
  | Option.none => 0

/-! ### Engine helpers (`Game` methods) -/

def get_other_players_in_current_node (g : Game) (player : String) : List String :=
  match find_player g player with
  | Option.none => []
  | Option.some p =>
    match get_node g p.current_location with
    | Option.none => []
    | Option.some node => node.players.filter (fun q => decide (q ≠ player))

def tick_cooldowns (g : Game) : Game :=
  { g with players := g.players.map (fun p =>
      if p.state = PlayerState.DEAD then p
      else { p with kill_cooldown := max (p.kill_cooldown - 1) 0,
                    vent_cooldown := max (p.vent_cooldown - 1) 0 }) }

def log_report_outcome (g : Game) (reporter : String) (witnessed : Option String)
    (dead_bodies : Option (List String)) (voted_out : Option String) : Game :=
  { g with action_history :=
      g.action_history ++ [(g.tick_counter, reporter, LogEntry.outcome reporter witnessed dead_bodies voted_out)] }

/-- Elimination by vote: `x.state = DEAD; x.voted_out = True`. -/
def mark_voted (g : Game) (name : String) : Game :=
  update_player g name (fun p => { p with state := PlayerState.DEAD, voted_out := true })

/-- `if dead_bodies: for p in dead_bodies: p.dead_body_reported = True` -/
def mark_bodies (g : Game) (dead_bodies : Option (List String)) : Game :=
  match dead_bodies with
  | Option.none => g
  | Option.some l =>
    l.foldl (fun gg n => update_player gg n (fun p => { p with dead_body_reported := true })) g

/-! ### Witnessed-report arbitration (`Game.report`, `if witnessed:` branch) -/

def imposters_in_node (g : Game) (reporter : String) : List String :=
  (get_other_players_in_current_node g reporter).filter
    (fun n => is_imposter g n && player_alive g n)

def crewmates_in_node (g : Game) (reporter : String) : List String :=
  (get_other_players_in_current_node g reporter).filter
    (fun n => !(is_imposter g n) && player_alive g n)

/-- The impostor side of the tally, the reporter appended to its own side. -/
def tally_imposters (g : Game) (reporter : String) : List String :=
  if is_imposter g reporter then imposters_in_node g reporter ++ [reporter]
  else imposters_in_node g reporter

/-- The crewmate side of the tally, the reporter appended to its own side. -/
def tally_crewmates (g : Game) (reporter : String) : List String :=
  if is_imposter g reporter then crewmates_in_node g reporter
  else crewmates_in_node g reporter ++ [reporter]

def report_witnessed (g : Game) (reporter : String) (dead_bodies : Option (List String))
    (witnessed : String) : Game :=
  if ((tally_imposters g reporter).length : Int) - ((tally_crewmates g reporter).length : Int) ≥ 1 then
    log_report_outcome (mark_voted g reporter) reporter (Option.some witnessed) dead_bodies
      (Option.some reporter)
  else if ((tally_crewmates g reporter).length : Int) - ((tally_imposters g reporter).length : Int) ≥ 1 then
    if is_imposter g reporter then
      log_report_outcome (mark_voted g reporter) reporter (Option.some witnessed) dead_bodies
        (Option.some reporter)
    else
      log_report_outcome (mark_voted g witnessed) reporter (Option.some witnessed) dead_bodies
        (Option.some witnessed)
  else
    g

/-! ### Suspicion scoring (`Game.report`, body branch) -/

/-- `sus_score[name] += 1` on the insertion-ordered dict. -/
def bump (scores : List (String × Int)) (name : String) : List (String × Int) :=
  scores.map (fun x => if x.1 = name then (x.1, x.2 + 1) else x)

/-- `{p: 0 for p in self.players if p.state != DEAD}` in roster order. -/
def sus_base (g : Game) : List (String × Int) :=
  g.players.filterMap (fun p =>
    if p.state = PlayerState.DEAD then Option.none else Option.some (p.name, (0 : Int)))

def sus_colocation_step (g : Game) (dead_set : List String) (sc : List (String × Int))
    (q : String) : List (String × Int) :=
  if q ∉ dead_set ∧ player_alive g q = true then bump sc q else sc

/-- Co-location with the killer at report time. -/
def sus_colocation (g : Game) (dead_set : List String) (kill_node : Node)
    (scores : List (String × Int)) : List (String × Int) :=
  kill_node.players.foldl (sus_colocation_step g dead_set) scores

/-- The per-record movement-correlation test exactly as the source writes it:
a one-sided non-strict bound for a departure from the kill node and a
one-sided strict bound for an arrival at it. -/
def movement_correlated (kill_tick : Int) (kill_node : String) (e : MovementHistory) : Bool :=
  decide ((e.tick - kill_tick ≤ 2 ∧ e.previous = kill_node) ∨
    (kill_tick - e.tick < 2 ∧ e.location = kill_node))

/-- The movement-correlation test the specification sentence describes: a
symmetric 2-tick window around the kill tick and a match of the kill location
as departure origin or arrival destination. -/
def movement_correlated_spec (kill_tick : Int) (kill_node : String) (e : MovementHistory) : Bool :=
  decide ((e.tick - kill_tick).natAbs ≤ 2 ∧ (e.previous = kill_node ∨ e.location = kill_node))

def sus_movement_step (g : Game) (kill_tick : Int) (kill_node : String)
    (sc : List (String × Int)) (e : MovementHistory) : List (String × Int) :=
  if player_alive g e.subject = false ∨ player_alive g e.witness = false then sc
  else if movement_correlated kill_tick kill_node e = true then bump sc e.subject else sc

def sus_movement (g : Game) (kill_tick : Int) (kill_node : String)
    (scores : List (String × Int)) : List (String × Int) :=
  g.movement_history.foldl (sus_movement_step g kill_tick kill_node) scores

def sus_followers_step (dead_set : List String) (sc : List (String × Int))
    (p : Player) : List (String × Int) :=
  if p.state = PlayerState.DEAD then sc
  else if p.player_following.any (fun q => decide (q ∈ dead_set)) then bump sc p.name
  else if (match p.following_player with
           | Option.some l => decide (l ∈ dead_set)
           | Option.none => false) then bump sc p.name
  else sc

/-- Being a follower of, or followed by, a reported victim. -/
def sus_followers (g : Game) (dead_set : List String)
    (scores : List (String × Int)) : List (String × Int) :=
  g.players.foldl (sus_followers_step dead_set) scores

def sus_vouch_step (sc : List (String × Int)) (p : Player) : List (String × Int) :=
  sc.map (fun x =>
    if x.1 ∈ p.vouch_history ∧ p.state ≠ PlayerState.DEAD then (x.1, 0) else x)

/-- Vouch immunity: zero the score of anyone vouched-for by a living player. -/
def sus_vouch (g : Game) (scores : List (String × Int)) : List (String × Int) :=
  g.players.foldl sus_vouch_step scores

/-- The full suspicion-score pipeline, in source order, as it stands when the
candidate set is selected. -/
def sus_scores (g : Game) (kill_tick : Int) (dead_set : List String)
    (kill_node : Node) : List (String × Int) :=
  sus_vouch g (sus_followers g dead_set
    (sus_movement g kill_tick kill_node.name
      (sus_colocation g dead_set kill_node (sus_base g))))

/-- Python `set(a) == set(b)` on name lists. -/
def same_set (a b : List String) : Bool :=
  a.all (fun x => decide (x ∈ b)) && b.all (fun x => decide (x ∈ a))

/-- The body branch of `Game.report`.  `relevant[0]` on an empty list raises
an `IndexError` in the source; that is the `Except.error ()` arm.  The other
`error` arms are dictionary lookups that cannot fail in consistent states. -/
def report_body (g : Game) (reporter : String) (dead_bodies : Option (List String))
    (witnessed : Option String) : Except Unit Game :=
  let dead_set := dead_bodies.getD []
  match g.kill_witness_history.filter (fun e => decide (e.victim ∈ dead_set)) with
  | [] => Except.error ()
  | latest_entry :: _ =>
    if latest_entry.witnesses ≠ [] then
      Except.ok (log_report_outcome (mark_voted g latest_entry.killer) reporter
        (Option.some latest_entry.killer) dead_bodies (Option.some latest_entry.killer))
    else
      match find_player g latest_entry.killer with
      | Option.none => Except.error ()
      | Option.some killer =>
        match get_node g killer.current_location with
        | Option.none => Except.error ()
        | Option.some kill_node =>
          let scores := sus_scores g latest_entry.tick dead_set kill_node
          match scores.map Prod.snd with
          | [] => Except.error ()
          | v :: vs =>
            let max_sus := vs.foldl max v
            let possible_suspects := scores.filterMap (fun x =>
              if player_alive g x.1 = true ∧ max_sus - SUS_WINDOW ≤ x.2 ∧ x.2 ≤ max_sus then
                Option.some x.1
              else Option.none)
            let is_suspects_all_in_same_group := possible_suspects.all (fun p =>
              (possible_suspects.filter (fun s => decide (s ≠ p))).all
                  (fun s => following_of g s == Option.some p) ||
                same_set (possible_suspects.filter (fun s => decide (s ≠ p))) (followers_of g p))
            if (possible_suspects.length ≠ 1 ∧ is_suspects_all_in_same_group = false) ∨
                possible_suspects.length = 0 then
              Except.ok (log_report_outcome g reporter witnessed dead_bodies Option.none)
            else
              match possible_suspects with
              | [] => Except.ok (log_report_outcome g reporter witnessed dead_bodies Option.none)
              | chosen :: _ =>
                Except.ok (log_report_outcome (mark_voted g chosen) reporter witnessed
                  dead_bodies (Option.some chosen))

/-- `Game.report`.  A present `witnessed` player object is always truthy, so
the witnessed branch runs and returns; otherwise the body branch runs. -/
def report (g : Game) (reporter : String) (dead_bodies : Option (List String))
    (witnessed : Option String) : Except Unit Game :=
  let g1 := mark_bodies g dead_bodies
  match witnessed with
  | Option.some w => Except.ok (report_witnessed g1 reporter dead_bodies w)
  | Option.none => report_body g1 reporter dead_bodies Option.none

/-! ### Action application (`Game._apply_*` and `Game.apply_action`) -/

def apply_set_state (g : Game) (player : String) (new_state : PlayerState) : Game :=
  match find_player g player with
  | Option.none => g
  | Option.some p =>
    if p.state = PlayerState.DEAD then g
    else update_player g player (fun q => { q with state := new_state })

def apply_move (g : Game) (player : String) (dest_name : String) : Game :=
  match find_player g player with
  | Option.none => g
  | Option.some p =>
    if p.state = PlayerState.DEAD then g
    else if (get_node g dest_name).isNone then g
    else
      match lookup_edge g p.current_location dest_name with
      | Option.none => g
      | Option.some is_vent =>
        if is_vent = true ∧ (¬ p.imposter ∨ 0 < p.vent_cooldown) then g
        else
          let dislike := lookup_dislike p.dislike_visited_node dest_name
          let g1 := update_player g player (fun q =>
            { q with dislike_visited_node :=
                set_assoc q.dislike_visited_node dest_name (min (dislike + DELTA_DISLIKE) MAX_DISLIKE) })
          let g2 := update_node_players g1 p.current_location (fun l => l.erase player)
          let g3 := update_node_players g2 dest_name
            (fun l => if player ∈ l then l else l ++ [player])
          let g4 := update_player g3 player (fun q => { q with current_location := dest_name })
          let dest_occupants := match get_node g4 dest_name with
            | Option.none => []
            | Option.some dn => dn.players
          -- the source constructs `MovementHistory(tick, player, witness, src, dest)`,
          -- so the mover lands in the `witness` field and the onlooker in `subject`
          let g5 := { g4 with movement_history := g4.movement_history ++
            dest_occupants.filterMap (fun w =>
              if w ≠ player ∧ player_alive g4 w = true then
                Option.some { tick := g4.tick_counter, witness := player, subject := w,
                              previous := p.current_location, location := dest_name }
              else Option.none) }
          let src_vent := match get_node g p.current_location with
            | Option.none => false
            | Option.some n => n.vent
          let dest_vent := match get_node g dest_name with
            | Option.none => false
            | Option.some n => n.vent
          if src_vent = true ∧ dest_vent = false then
            update_player g5 player (fun q => { q with vent_cooldown := VENT_COOLDOWN_TICKS })
          else g5

def apply_start_task (g : Game) (player : String) (task : Task) : Game :=
  match find_player g player with
  | Option.none => g
  | Option.some p =>
    if p.state = PlayerState.DEAD then g
    else if task ∉ p.tasks ∧ p.current_task ≠ Option.none then g
    else
      -- the source sets `current_task` first and then conditionally removes the
      -- task from the (unchanged) queue; both effects land on the same player
      update_player g player (fun q =>
        if ¬ q.imposter ∧ task ∈ q.tasks then
          { q with current_task := Option.some task, tasks := q.tasks.erase task }
        else { q with current_task := Option.some task })

def apply_work_task_tick (g : Game) (player : String) : Game :=
  match find_player g player with
  | Option.none => g
  | Option.some p =>
    if p.state = PlayerState.DEAD then g
    else
      match p.current_task with
      | Option.none => g
      | Option.some task =>
        if task.location ≠ p.current_location then g
        else if p.ticks_elapsed + 1 < TASK_TO_TICKS task.length then
          update_player g player (fun q => { q with ticks_elapsed := q.ticks_elapsed + 1 })
        else
          let g1 := update_player g player (fun q => { q with ticks_elapsed := 0 })
          let g2 := match task.next_task with
            | Option.some (next_name :: _) =>
              if ¬ p.imposter then
                match lookup_task g1 next_name with
                | Option.some nt =>
                  update_player g1 player (fun q => { q with tasks := q.tasks ++ [nt] })
                | Option.none => g1
              else g1
            | _ => g1
          let g3 := if task.visual = true ∧ ¬ p.imposter then
              p.player_following.foldl (fun gg fn =>
                update_player gg fn (fun q =>
                  { q with vouch_history :=
                      if player ∈ q.vouch_history then q.vouch_history
                      else q.vouch_history ++ [player] })) g2
            else g2
          update_player g3 player (fun q => { q with current_task := Option.none })

def apply_kill (g : Game) (attacker target : String) (self_report : Bool)
    (self_report_witness witness_reporter : Option String) : Except Unit Game :=
  match find_player g attacker with
  | Option.none => Except.ok g
  | Option.some att =>
    if att.state = PlayerState.DEAD then Except.ok g
    else if ¬ att.imposter then Except.ok g
    else if 0 < att.kill_cooldown then Except.ok g
    else
      match find_player g target with
      | Option.none => Except.ok g
      | Option.some tgt =>
        if tgt.state = PlayerState.DEAD then Except.ok g
        else if tgt.imposter then Except.ok g
        else if att.current_location ≠ tgt.current_location then Except.ok g
        else
          match get_node g att.current_location with
          | Option.none => Except.error ()
          | Option.some node =>
            let witnesses := node.players.filter (fun q =>
              decide (q ≠ attacker) && decide (q ≠ target) && player_alive g q)
            let g1 := { g with kill_witness_history := g.kill_witness_history ++
              [{ tick := g.tick_counter, killer := attacker, victim := target,
                 witnesses := witnesses }] }
            let g2 := update_player g1 target (fun q => { q with state := PlayerState.DEAD })
            let g3 := if target ∈ att.player_following then
                update_player (update_player g2 attacker
                    (fun q => { q with player_following := q.player_following.erase target }))
                  target (fun q => { q with following_player := Option.none })
              else g2
            let g4 := if att.following_player = Option.some target then
                update_player g3 attacker (fun q => { q with following_player := Option.none })
              else g3
            let g5 := update_player g4 attacker
              (fun q => { q with kill_cooldown := KILL_COOLDOWN_TICKS })
            match (if self_report then
                report g5 attacker (Option.some [target]) self_report_witness
              else Except.ok g5) with
            | Except.error e => Except.error e
            | Except.ok g6 =>
              match witness_reporter with
              | Option.some r => report g6 r (Option.some [target]) (Option.some attacker)
              | Option.none => Except.ok g6

def apply_report (g : Game) (reporter : String) (dead_bodies : Option (List String))
    (witnessed : Option String) : Except Unit Game :=
  match find_player g reporter with
  | Option.none => Except.ok g
  | Option.some p =>
    if p.state = PlayerState.DEAD then Except.ok g
    else report g reporter dead_bodies witnessed

def apply_follow (g : Game) (player : String) (leader : Option String) : Game :=
  match find_player g player with
  | Option.none => g
  | Option.some p =>
    if p.state = PlayerState.DEAD then g
    else
      let g1 := match p.following_player with
        | Option.some old_leader =>
          update_player (update_player g old_leader
              (fun q => { q with player_following := q.player_following.erase player }))
            player (fun q => { q with following_player := Option.none })
        | Option.none => g
      match leader with
      | Option.none => update_player g1 player (fun q => { q with state := PlayerState.IDLE })
      | Option.some l =>
        let g2 := update_player g1 player (fun q => { q with following_player := Option.some l })
        let g3 := update_player g2 l (fun q =>
          { q with player_following :=
              if player ∈ q.player_following then q.player_following
              else q.player_following ++ [player] })
        update_player g3 player (fun q => { q with state := PlayerState.FOLLOWING })

/-- The `(tick, player, action)` entry appended by `apply_action` before any
legality check of the dispatched handler. -/
def log_action (g : Game) (player : String) (a : Action) : Game :=
  { g with action_history := g.action_history ++ [(g.tick_counter, player, LogEntry.act a)] }

/-- `Game.apply_action`: a `NoneAction` returns before logging; every other
action is logged first and then dispatched to its handler. -/
def apply_action (g : Game) (player : String) (a : Action) : Except Unit Game :=
  match a with
  | Action.none => Except.ok g
  | Action.move dest =>
    Except.ok (apply_move (log_action g player (Action.move dest)) player dest)
  | Action.start_task task =>
    Except.ok (apply_start_task (log_action g player (Action.start_task task)) player task)
  | Action.work_task_tick =>
    Except.ok (apply_work_task_tick (log_action g player Action.work_task_tick) player)
  | Action.kill t sr srw wr =>
    apply_kill (log_action g player (Action.kill t sr srw wr)) player t sr srw wr
  | Action.report db w =>
    apply_report (log_action g player (Action.report db w)) player db w
  | Action.set_state s =>
    Except.ok (apply_set_state (log_action g player (Action.set_state s)) player s)
  | Action.follow l =>
    Except.ok (apply_follow (log_action g player (Action.follow l)) player l)

/-! ### Policy group operations (`fuzzer.py`)

The random draws of the policy (`random.shuffle`, `random.choice`) become
explicit parameters; one `assign_group` models one iteration of the group
loop in `Fuzzer.ensure_groups`. -/

def assign_group (g : Game) (leader : String) (followers : List String) : Game :=
  let g1 := update_player g leader (fun p =>
    { p with player_following := followers, following_player := Option.none,
             state := PlayerState.IDLE })
  followers.foldl (fun gg f => update_player gg f (fun p =>
    { p with following_player := Option.some leader, player_following := [],
             state := PlayerState.FOLLOWING })) g1

/-- `Fuzzer.reroll_group_leader`, the choice of `random.choice(alive_followers)`
passed in as `new_leader`; a draw outside the candidate list stands for no
possible execution and leaves the state unchanged. -/
def reroll_group_leader (g : Game) (player : String) (include_self : Bool)
    (new_leader : String) : Game :=
  match find_player g player with
  | Option.none => g
  | Option.some p =>
    if p.player_following = [] then g
    else
      match get_node g p.current_location with
      | Option.none => g
      | Option.some current_node =>
        let alive_followers := p.player_following.filter (fun q =>
          player_alive g q && decide (q ∈ current_node.players))
        let alive_followers := if include_self = true ∧ p.state ≠ PlayerState.DEAD then
            alive_followers ++ [player]
          else alive_followers
        if alive_followers = [] then g
        else if new_leader ∉ alive_followers then g
        else
          let rest := (p.player_following ++ [player]).filter (fun q =>
            decide (q ≠ new_leader) && player_alive g q)
          let g1 := update_player g new_leader (fun q =>
            { q with player_following := rest, following_player := Option.none,
                     state := PlayerState.IDLE })
          rest.foldl (fun gg q => update_player gg q (fun r =>
            { r with following_player := Option.some new_leader, player_following := [],
                     state := PlayerState.FOLLOWING })) g1

/-! ### Invariants and reachability -/

/-- The per-player invariant of §3/§8 of the specification: dislike weights in
`[0, MAX_DISLIKE]`, non-negative cooldowns, and the local star condition that
nobody holds a leader reference and a non-empty follower list at once. -/
def PlayerInv (p : Player) : Prop :=
  (∀ e ∈ p.dislike_visited_node, 0 ≤ e.2 ∧ e.2 ≤ MAX_DISLIKE) ∧
  0 ≤ p.kill_cooldown ∧ 0 ≤ p.vent_cooldown ∧
  (p.following_player = Option.none ∨ p.player_following = [])

def GameInv (g : Game) : Prop := ∀ p ∈ g.players, PlayerInv p

instance (p : Player) : Decidable (PlayerInv p) := by
  unfold PlayerInv; exact inferInstance

instance (g : Game) : Decidable (GameInv g) := by
  unfold GameInv; exact inferInstance

def is_follow : Action → Bool
  | Action.follow _ => true
  | _ => false

/-- One engine or policy step: the per-tick cooldown phase, a dispatched
non-`Follow` action that completes without raising, one group assignment of
`Fuzzer.ensure_groups`, or one `Fuzzer.reroll_group_leader`. -/
inductive PolicyStep : Game → Game → Prop
  | tick_phase (g : Game) :
      PolicyStep g (tick_cooldowns { g with tick_counter := g.tick_counter + 1 })
  | engine (g g' : Game) (player : String) (a : Action) (hf : is_follow a = false)
      (h : apply_action g player a = Except.ok g') : PolicyStep g g'
  | groups (g : Game) (leader : String) (followers : List String) :
      PolicyStep g (assign_group g leader followers)
  | reroll (g : Game) (player : String) (include_self : Bool) (new_leader : String) :
      PolicyStep g (reroll_group_leader g player include_self new_leader)

def PolicyReachable : Game → Game → Prop := Relation.ReflTransGen PolicyStep

/-- `sus_score[name]` on the ordered dict, defaulting absent keys to 0. -/
def score_of (scores : List (String × Int)) (name : String) : Int :=
  match scores.find? (fun x => decide (x.1 = name)) with
  | Option.some x => x.2
  | Option.none => 0

/-! ### Concrete states used by the counterexamples and witnesses -/

def base_player (name : String) (imposter : Bool) (loc : String) : Player :=
  { name := name, imposter := imposter, tasks := [], state := PlayerState.IDLE,
    current_location := loc, current_task := Option.none, ticks_elapsed := 0,
    dislike_visited_node := [], following_player := Option.none, player_following := [],
    vouch_history := [], kill_cooldown := 0, vent_cooldown := 0,
    voted_out := false, dead_body_reported := false }

def empty_game : Game :=
  { nodes := [], edges := [], tasks := [], players := [], movement_history := [],
    kill_witness_history := [], tick_counter := 0, action_history := [] }

/-- A live reporter and one kill record whose victim matches no reported body. -/
def c1_game : Game :=
  { empty_game with
    nodes := [{ name := "cafeteria", players := ["A"], vent := false }],
    players := [base_player "A" false "cafeteria"],
    kill_witness_history := [{ tick := 0, killer := "B", victim := "V", witnesses := [] }],
    tick_counter := 1 }

/-- An arrival at the kill location two ticks before the kill. -/
def c2_entry : MovementHistory :=
  { tick := 0, witness := "W", subject := "B", previous := "X", location := "K" }

def c2_game : Game :=
  { empty_game with
    nodes := [{ name := "K", players := ["B", "W"], vent := false }],
    players := [base_player "B" false "K", base_player "W" false "K"],
    movement_history := [c2_entry],
    tick_counter := 3 }

/-- A mover `M` stepping from `A` into `B`, observed by the living occupant `W`. -/
def c3_game : Game :=
  { empty_game with
    nodes := [{ name := "A", players := ["M"], vent := false },
              { name := "B", players := ["W"], vent := false }],
    edges := [("A", [("B", false)]), ("B", [("A", false)])],
    players := [base_player "M" false "A", base_player "W" false "B"],
    tick_counter := 4 }

/-- A witnessed report that ties: reporter `A` (crewmate) against exactly one
co-located living impostor `B`. -/
def c4_game : Game :=
  { empty_game with
    nodes := [{ name := "caf", players := ["A", "B"], vent := false }],
    players := [base_player "A" false "caf", base_player "B" true "caf"],
    tick_counter := 2 }

def c5_task_a : Task :=
  { name := "wires", length := TaskLength.MEDIUM, visual := false, location := "caf",
    next_task := Option.none }

def c5_task_b : Task :=
  { name := "trash", length := TaskLength.SHORT, visual := false, location := "caf",
    next_task := Option.none }

/-- A crewmate mid-way through one task (one elapsed tick) with another task
still queued. -/
def c5_player : Player :=
  { base_player "P" false "caf" with
    state := PlayerState.WORKING,
    current_task := Option.some c5_task_a,
    ticks_elapsed := 1,
    tasks := [c5_task_b] }

def c5_game : Game :=
  { empty_game with
    nodes := [{ name := "caf", players := ["P"], vent := false }],
    players := [c5_player],
    tick_counter := 3 }

/-- Two kill records in tick order; the earlier one (victim `V`) carries one
direct witness `W`. -/
def c6_game : Game :=
  { empty_game with
    nodes := [{ name := "caf", players := ["K", "R", "W", "V"], vent := false }],
    players := [base_player "K" true "caf", base_player "R" false "caf",
                base_player "W" false "caf",
                { base_player "V" false "caf" with state := PlayerState.DEAD }],
    kill_witness_history := [{ tick := 2, killer := "K", victim := "V", witnesses := ["W"] },
                             { tick := 5, killer := "K", victim := "V2", witnesses := [] }],
    tick_counter := 6 }

/-- A witnessed report with a crewmate majority: reporter `R` (crewmate) with
co-located impostor `B` and crewmate `D`. -/
def c7_game : Game :=
  { empty_game with
    nodes := [{ name := "caf", players := ["R", "B", "D"], vent := false }],
    players := [base_player "R" false "caf", base_player "B" true "caf",
                base_player "D" false "caf"],
    tick_counter := 2 }

def c8_q : Player :=
  { base_player "Q" false "caf" with vouch_history := ["N"] }

/-- `N` is vouched-for by the living `Q` while standing in the kill node. -/
def c8_game : Game :=
  { empty_game with
    nodes := [{ name := "caf", players := ["N", "Q"], vent := false }],
    players := [base_player "N" false "caf", c8_q],
    tick_counter := 2 }

def c8_kill_node : Node :=
  { name := "caf", players := ["N"], vent := false }

/-- Three idle crewmates; `A` will follow `B`, then `B` will follow `C`. -/
def c9_game : Game :=
  { empty_game with
    nodes := [{ name := "start", players := ["A", "B", "C"], vent := false }],
    players := [base_player "A" false "start", base_player "B" false "start",
                base_player "C" false "start"],
    tick_counter := 1 }

def c9_g1 : Game :=
  apply_follow (log_action c9_game "A" (Action.follow (Option.some "B"))) "A"
    (Option.some "B")

def c9_g2 : Game :=
  apply_follow (log_action c9_g1 "B" (Action.follow (Option.some "C"))) "B"
    (Option.some "C")

/-! ### Generic bookkeeping lemmas -/

theorem foldl_proj {α β γ : Type _} (proj : α → γ) (step : α → β → α)
    (h : ∀ a b, proj (step a b) = proj a) (l : List β) (a : α) :
    proj (l.foldl step a) = proj a := by
  induction l generalizing a with
  | nil => rfl
  | cons x t ih => rw [List.foldl_cons, ih, h]

theorem foldl_pred {α β : Type _} (P : α → Prop) (step : α → β → α)
    (h : ∀ a b, P a → P (step a b)) (l : List β) (a : α) (ha : P a) :
    P (l.foldl step a) := by
  induction l generalizing a with
  | nil => exact ha
  | cons x t ih => exact ih (step a x) (h a x ha)

theorem find?_map_update (l : List Player) (nm m : String) (f : Player → Player)
    (hf : ∀ p, (f p).name = p.name) :
    (l.map (fun p => if p.name = nm then f p else p)).find? (fun p => decide (p.name = m)) =
      if m = nm then (l.find? (fun p => decide (p.name = m))).map f
      else l.find? (fun p => decide (p.name = m)) := by
  induction l with
  | nil => simp only [List.map_nil, List.find?_nil, Option.map_none']; split <;> rfl
  | cons p t ih =>
    simp only [List.map_cons]
    by_cases hpn : p.name = nm
    · rw [if_pos hpn]
      by_cases hpm : p.name = m
      · have hmn : m = nm := by rw [← hpm, hpn]
        rw [List.find?_cons_of_pos _ (by simp [hf, hpm]),
          if_pos hmn, List.find?_cons_of_pos _ (by simp [hpm]), Option.map_some']
      · rw [List.find?_cons_of_neg _ (by simp [hf, hpm]),
          List.find?_cons_of_neg _ (by simp [hpm]), ih]
    · rw [if_neg hpn]
      by_cases hpm : p.name = m
      · have hmn : ¬ m = nm := fun h => hpn (by rw [hpm, h])
        rw [List.find?_cons_of_pos _ (by simp [hpm]), if_neg hmn,
          List.find?_cons_of_pos _ (by simp [hpm])]
      · rw [List.find?_cons_of_neg _ (by simp [hpm]),
          List.find?_cons_of_neg _ (by simp [hpm]), ih]

theorem find_player_update (g : Game) (nm m : String) (f : Player → Player)
    (hf : ∀ p, (f p).name = p.name) :
    find_player (update_player g nm f) m =
      if m = nm then (find_player g m).map f else find_player g m :=
  find?_map_update g.players nm m f hf

theorem find_player_mem {g : Game} {n : String} {p : Player}
    (h : find_player g n = Option.some p) : p ∈ g.players :=
  List.mem_of_find?_eq_some h

theorem update_player_action_history (g : Game) (nm : String) (f : Player → Player) :
    (update_player g nm f).action_history = g.action_history := rfl

theorem update_player_kwh (g : Game) (nm : String) (f : Player → Player) :
    (update_player g nm f).kill_witness_history = g.kill_witness_history := rfl

theorem update_player_tick (g : Game) (nm : String) (f : Player → Player) :
    (update_player g nm f).tick_counter = g.tick_counter := rfl

theorem status_of_update (g : Game) (nm m : String) (f : Player → Player)
    (hf : ∀ p, (f p).name = p.name) (hs : ∀ p, (f p).state = p.state)
    (hv : ∀ p, (f p).voted_out = p.voted_out) :
    status_of (update_player g nm f) m = status_of g m := by
  unfold status_of
  rw [find_player_update g nm m f hf]
  by_cases h : m = nm
  · rw [if_pos h]
    cases find_player g m with
    | none => rfl
    | some p => simp [hs, hv]
  · rw [if_neg h]

theorem mark_bodies_fold_kwh (l : List String) (g : Game) :
    (l.foldl (fun gg n => update_player gg n
        (fun p => { p with dead_body_reported := true })) g).kill_witness_history =
      g.kill_witness_history := by
  induction l generalizing g with
  | nil => rfl
  | cons x t ih => rw [List.foldl_cons, ih]; rfl

theorem mark_bodies_kwh (g : Game) (db : Option (List String)) :
    (mark_bodies g db).kill_witness_history = g.kill_witness_history := by
  cases db with
  | none => rfl
  | some l => exact mark_bodies_fold_kwh l g

theorem mark_bodies_fold_action_history (l : List String) (g : Game) :
    (l.foldl (fun gg n => update_player gg n
        (fun p => { p with dead_body_reported := true })) g).action_history =
      g.action_history := by
  induction l generalizing g with
  | nil => rfl
  | cons x t ih => rw [List.foldl_cons, ih]; rfl

theorem mark_bodies_action_history (g : Game) (db : Option (List String)) :
    (mark_bodies g db).action_history = g.action_history := by
  cases db with
  | none => rfl
  | some l => exact mark_bodies_fold_action_history l g

theorem mark_bodies_fold_status (l : List String) (g : Game) (m : String) :
    status_of (l.foldl (fun gg n => update_player gg n
        (fun p => { p with dead_body_reported := true })) g) m = status_of g m := by
  induction l generalizing g with
  | nil => rfl
  | cons x t ih =>
    rw [List.foldl_cons, ih]
    exact status_of_update g x m (fun p => { p with dead_body_reported := true })
      (fun p => rfl) (fun p => rfl) (fun p => rfl)

theorem mark_bodies_status (g : Game) (db : Option (List String)) (m : String) :
    status_of (mark_bodies g db) m = status_of g m := by
  cases db with
  | none => rfl
  | some l => exact mark_bodies_fold_status l g m

theorem status_of_log (g : Game) (r : String) (w : Option String)
    (db : Option (List String)) (v : Option String) (m : String) :
    status_of (log_report_outcome g r w db v) m = status_of g m := rfl

theorem status_of_mark_voted_self (g : Game) (n : String) :
    status_of (mark_voted g n) n =
      (status_of g n).map (fun _ => (PlayerState.DEAD, true)) := by
  unfold status_of mark_voted
  rw [find_player_update g n n
    (fun p => { p with state := PlayerState.DEAD, voted_out := true }) (fun p => rfl),
    if_pos rfl]
  cases find_player g n <;> rfl

theorem status_of_mark_voted_ne (g : Game) (n m : String) (h : m ≠ n) :
    status_of (mark_voted g m) n = status_of g n := by
  unfold status_of mark_voted
  rw [find_player_update g m n
    (fun p => { p with state := PlayerState.DEAD, voted_out := true }) (fun p => rfl),
    if_neg (Ne.symm h)]

/-! ### Invariant preservation -/

theorem game_inv_players_eq {g g' : Game} (h : g'.players = g.players) (hg : GameInv g) :
    GameInv g' := by
  intro p hp
  exact hg p (h ▸ hp)

theorem game_inv_set_kwh {g : Game} (k : List KillWitnessHistory) (hg : GameInv g) :
    GameInv { g with kill_witness_history := k } := fun p hp => hg p hp

theorem game_inv_set_movement (g : Game) (m : List MovementHistory) (hg : GameInv g) :
    GameInv { g with movement_history := m } := fun p hp => hg p hp

theorem game_inv_set_history (g : Game) (h : List (Int × String × LogEntry))
    (hg : GameInv g) : GameInv { g with action_history := h } := fun p hp => hg p hp

theorem game_inv_log_action (g : Game) (player : String) (a : Action) (hg : GameInv g) :
    GameInv (log_action g player a) := fun p hp => hg p hp

theorem game_inv_set_tick (g : Game) (t : Int) (hg : GameInv g) :
    GameInv { g with tick_counter := t } := fun p hp => hg p hp

theorem inv_update_player {g : Game} (nm : String) (f : Player → Player) (hg : GameInv g)
    (hf : ∀ p ∈ g.players, PlayerInv p → PlayerInv (f p)) :
    GameInv (update_player g nm f) := by
  intro q hq
  simp only [update_player, List.mem_map] at hq
  obtain ⟨p, hp, hpq⟩ := hq
  by_cases h : p.name = nm
  · rw [if_pos h] at hpq
    exact hpq ▸ hf p hp (hg p hp)
  · rw [if_neg h] at hpq
    exact hpq ▸ hg p hp

theorem player_inv_fields {p q : Player}
    (hd : q.dislike_visited_node = p.dislike_visited_node)
    (hk : q.kill_cooldown = p.kill_cooldown) (hv : q.vent_cooldown = p.vent_cooldown)
    (hfp : q.following_player = p.following_player)
    (hpf : q.player_following = p.player_following)
    (hp : PlayerInv p) : PlayerInv q :=
  ⟨by rw [hd]; exact hp.1, by rw [hk]; exact hp.2.1, by rw [hv]; exact hp.2.2.1,
   by rw [hfp, hpf]; exact hp.2.2.2⟩

theorem player_inv_set_kill_cooldown {p : Player} (hp : PlayerInv p) :
    PlayerInv { p with kill_cooldown := KILL_COOLDOWN_TICKS } :=
  ⟨hp.1, by norm_num [KILL_COOLDOWN_TICKS], hp.2.2.1, hp.2.2.2⟩

theorem player_inv_set_vent_cooldown {p : Player} (hp : PlayerInv p) :
    PlayerInv { p with vent_cooldown := VENT_COOLDOWN_TICKS } :=
  ⟨hp.1, hp.2.1, by norm_num [VENT_COOLDOWN_TICKS], hp.2.2.2⟩

theorem player_inv_erase_follower {p : Player} (t : String) (hp : PlayerInv p) :
    PlayerInv { p with player_following := p.player_following.erase t } := by
  refine ⟨hp.1, hp.2.1, hp.2.2.1, ?_⟩
  rcases hp.2.2.2 with h | h
  · exact Or.inl h
  · exact Or.inr (by rw [h]; rfl)

theorem player_inv_clear_following {p : Player} (hp : PlayerInv p) :
    PlayerInv { p with following_player := Option.none } :=
  ⟨hp.1, hp.2.1, hp.2.2.1, Or.inl rfl⟩

theorem player_inv_leader_form {p : Player} (l : List String) (hp : PlayerInv p) :
    PlayerInv { p with player_following := l, following_player := Option.none,
                       state := PlayerState.IDLE } :=
  ⟨hp.1, hp.2.1, hp.2.2.1, Or.inl rfl⟩

theorem player_inv_follower_form {p : Player} (ldr : String) (hp : PlayerInv p) :
    PlayerInv { p with following_player := Option.some ldr, player_following := [],
                       state := PlayerState.FOLLOWING } :=
  ⟨hp.1, hp.2.1, hp.2.2.1, Or.inr rfl⟩

theorem set_assoc_mem {l : List (String × Rat)} {k : String} {v : Rat} {e : String × Rat}
    (he : e ∈ set_assoc l k v) : e ∈ l ∨ e = (k, v) := by
  unfold set_assoc at he
  split at he
  · simp only [List.mem_map] at he
    obtain ⟨x, hx, hxe⟩ := he
    by_cases h : x.1 = k
    · rw [if_pos h] at hxe
      exact Or.inr hxe.symm
    · rw [if_neg h] at hxe
      exact Or.inl (hxe ▸ hx)
  · rcases List.mem_append.mp he with h | h
    · exact Or.inl h
    · exact Or.inr (by simpa using h)

theorem lookup_dislike_nonneg {l : List (String × Rat)} {k : String}
    (h : ∀ e ∈ l, 0 ≤ e.2 ∧ e.2 ≤ MAX_DISLIKE) : 0 ≤ lookup_dislike l k := by
  unfold lookup_dislike
  cases hfind : l.find? (fun x => decide (x.1 = k)) with
  | none => exact le_refl 0
  | some x => exact (h x (List.mem_of_find?_eq_some hfind)).1

theorem player_inv_set_dislike {p : Player} (k : String) (v : Rat)
    (hv0 : 0 ≤ v) (hv1 : v ≤ MAX_DISLIKE) (hp : PlayerInv p) :
    PlayerInv { p with dislike_visited_node := set_assoc p.dislike_visited_node k v } := by
  refine ⟨?_, hp.2.1, hp.2.2.1, hp.2.2.2⟩
  intro e he
  rcases set_assoc_mem he with h | h
  · exact hp.1 e h
  · rw [h]
    exact ⟨hv0, hv1⟩

theorem inv_log_report_outcome {g : Game} (r : String) (w : Option String)
    (db : Option (List String)) (v : Option String) (hg : GameInv g) :
    GameInv (log_report_outcome g r w db v) :=
  game_inv_players_eq rfl hg

theorem inv_mark_voted {g : Game} (n : String) (hg : GameInv g) :
    GameInv (mark_voted g n) :=
  inv_update_player n _ hg
    (fun _p _ hp => player_inv_fields rfl rfl rfl rfl rfl hp)

theorem mark_bodies_fold_inv (l : List String) (g : Game) (hg : GameInv g) :
    GameInv (l.foldl (fun gg n => update_player gg n
      (fun p => { p with dead_body_reported := true })) g) := by
  induction l generalizing g with
  | nil => exact hg
  | cons x t ih =>
    rw [List.foldl_cons]
    exact ih _ (inv_update_player x _ hg
      (fun p _ hp => player_inv_fields rfl rfl rfl rfl rfl hp))

theorem inv_mark_bodies {g : Game} (db : Option (List String)) (hg : GameInv g) :
    GameInv (mark_bodies g db) := by
  cases db with
  | none => exact hg
  | some l => exact mark_bodies_fold_inv l g hg

theorem inv_tick_cooldowns {g : Game} (hg : GameInv g) : GameInv (tick_cooldowns g) := by
  intro q hq
  simp only [tick_cooldowns, List.mem_map] at hq
  obtain ⟨p, hp, hpq⟩ := hq
  have hP := hg p hp
  by_cases h : p.state = PlayerState.DEAD
  · rw [if_pos h] at hpq
    exact hpq ▸ hP
  · rw [if_neg h] at hpq
    exact hpq ▸ ⟨hP.1, le_max_right _ _, le_max_right _ _, hP.2.2.2⟩

theorem inv_report_witnessed {g : Game} (r : String) (db : Option (List String))
    (w : String) (hg : GameInv g) : GameInv (report_witnessed g r db w) := by
  unfold report_witnessed
  split_ifs
  · exact inv_log_report_outcome _ _ _ _ (inv_mark_voted _ hg)
  · exact inv_log_report_outcome _ _ _ _ (inv_mark_voted _ hg)
  · exact inv_log_report_outcome _ _ _ _ (inv_mark_voted _ hg)
  · exact hg

theorem inv_report_body {g g' : Game} (r : String) (db : Option (List String))
    (w : Option String) (hg : GameInv g) (h : report_body g r db w = Except.ok g') :
    GameInv g' := by
  unfold report_body at h
  dsimp only at h
  split at h
  · exact absurd h (by simp)
  · split at h
    · rw [Except.ok.injEq] at h
      subst h
      exact inv_log_report_outcome _ _ _ _ (inv_mark_voted _ hg)
    · split at h
      · exact absurd h (by simp)
      · split at h
        · exact absurd h (by simp)
        · split at h
          · exact absurd h (by simp)
          · split at h
            · rw [Except.ok.injEq] at h
              subst h
              exact inv_log_report_outcome _ _ _ _ hg
            · split at h
              · rw [Except.ok.injEq] at h
                subst h
                exact inv_log_report_outcome _ _ _ _ hg
              · rw [Except.ok.injEq] at h
                subst h
                exact inv_log_report_outcome _ _ _ _ (inv_mark_voted _ hg)

theorem inv_report {g g' : Game} (r : String) (db : Option (List String))
    (w : Option String) (hg : GameInv g) (h : report g r db w = Except.ok g') :
    GameInv g' := by
  cases w with
  | some x =>
    unfold report at h
    rw [Except.ok.injEq] at h
    subst h
    exact inv_report_witnessed _ _ _ (inv_mark_bodies db hg)
  | none =>
    unfold report at h
    exact inv_report_body _ _ _ (inv_mark_bodies db hg) h

theorem inv_apply_set_state {g : Game} (player : String) (s : PlayerState)
    (hg : GameInv g) : GameInv (apply_set_state g player s) := by
  unfold apply_set_state
  split
  · exact hg
  · split
    · exact hg
    · exact inv_update_player _ _ hg
        (fun _p _ hp => player_inv_fields rfl rfl rfl rfl rfl hp)

theorem inv_apply_start_task {g : Game} (player : String) (task : Task)
    (hg : GameInv g) : GameInv (apply_start_task g player task) := by
  unfold apply_start_task
  split
  · exact hg
  · split
    · exact hg
    · split
      · exact hg
      · refine inv_update_player _ _ hg (fun q _ hq => ?_)
        split
        · exact player_inv_fields rfl rfl rfl rfl rfl hq
        · exact player_inv_fields rfl rfl rfl rfl rfl hq

theorem vouch_fold_inv (l : List String) (player : String) (g : Game) (hg : GameInv g) :
    GameInv (l.foldl (fun gg fn => update_player gg fn (fun q =>
      { q with vouch_history :=
          if player ∈ q.vouch_history then q.vouch_history
          else q.vouch_history ++ [player] })) g) := by
  induction l generalizing g with
  | nil => exact hg
  | cons x t ih =>
    rw [List.foldl_cons]
    exact ih _ (inv_update_player x _ hg
      (fun _p _ hp => player_inv_fields rfl rfl rfl rfl rfl hp))

theorem inv_apply_work_task_tick {g : Game} (player : String)
    (hg : GameInv g) : GameInv (apply_work_task_tick g player) := by
  unfold apply_work_task_tick
  split
  · exact hg
  · split
    · exact hg
    · split
      · exact hg
      · split
        · exact hg
        · split
          · exact inv_update_player _ _ hg
              (fun _p _ hp => player_inv_fields rfl rfl rfl rfl rfl hp)
          · dsimp only
            refine inv_update_player _ _ ?_
              (fun _p _ hp => player_inv_fields rfl rfl rfl rfl rfl hp)
            have hg1 : GameInv (update_player g player
                (fun q => { q with ticks_elapsed := 0 })) :=
              inv_update_player _ _ hg
                (fun _p _ hp => player_inv_fields rfl rfl rfl rfl rfl hp)
            split
            · apply vouch_fold_inv
              split
              · split
                · split
                  · exact inv_update_player _ _ hg1
                      (fun _p _ hp => player_inv_fields rfl rfl rfl rfl rfl hp)
                  · exact hg1
                · exact hg1
              · exact hg1
            · split
              · split
                · split
                  · exact inv_update_player _ _ hg1
                      (fun _p _ hp => player_inv_fields rfl rfl rfl rfl rfl hp)
                  · exact hg1
                · exact hg1
              · exact hg1

theorem inv_apply_move {g : Game} (player dest : String) (hg : GameInv g) :
    GameInv (apply_move g player dest) := by
  unfold apply_move
  cases hfind : find_player g player with
  | none => exact hg
  | some p =>
    dsimp only
    have hp : PlayerInv p := hg p (find_player_mem hfind)
    have hv0 : (0 : Rat) ≤
        min (lookup_dislike p.dislike_visited_node dest + DELTA_DISLIKE) MAX_DISLIKE := by
      have hd0 : (0 : Rat) ≤ lookup_dislike p.dislike_visited_node dest :=
        lookup_dislike_nonneg hp.1
      have hdelta : (0 : Rat) ≤ DELTA_DISLIKE := by norm_num [DELTA_DISLIKE]
      exact le_min (by linarith) (by norm_num [MAX_DISLIKE])
    have hv1 :
        min (lookup_dislike p.dislike_visited_node dest + DELTA_DISLIKE) MAX_DISLIKE ≤
          MAX_DISLIKE := min_le_right _ _
    split
    · exact hg
    · split
      · exact hg
      · cases hedge : lookup_edge g p.current_location dest with
        | none => exact hg
        | some is_vent =>
          dsimp only
          split
          · exact hg
          · dsimp only [update_player, update_node_players]
            split
            all_goals intro q hq
            all_goals simp only [List.mem_map] at hq
            · obtain ⟨a, ⟨b, ⟨c, hc, rfl⟩, rfl⟩, rfl⟩ := hq
              have hcInv := hg c hc
              by_cases hc1 : c.name = player
              · simp only [hc1, if_true, eq_self_iff_true]
                refine ⟨?_, hcInv.2.1, by norm_num [VENT_COOLDOWN_TICKS], hcInv.2.2.2⟩
                intro e he
                rcases set_assoc_mem he with h | h
                · exact hcInv.1 e h
                · rw [h]
                  exact ⟨hv0, hv1⟩
              · simp only [hc1, if_false]
                exact hcInv
            · obtain ⟨b, ⟨c, hc, rfl⟩, rfl⟩ := hq
              have hcInv := hg c hc
              by_cases hc1 : c.name = player
              · simp only [hc1, if_true, eq_self_iff_true]
                refine ⟨?_, hcInv.2.1, hcInv.2.2.1, hcInv.2.2.2⟩
                intro e he
                rcases set_assoc_mem he with h | h
                · exact hcInv.1 e h
                · rw [h]
                  exact ⟨hv0, hv1⟩
              · simp only [hc1, if_false]
                exact hcInv

theorem inv_apply_kill {g g' : Game} (attacker target : String) (sr : Bool)
    (srw wr : Option String) (hg : GameInv g)
    (h : apply_kill g attacker target sr srw wr = Except.ok g') : GameInv g' := by
  unfold apply_kill at h
  split at h
  · rw [Except.ok.injEq] at h
    subst h
    exact hg
  · split at h
    · rw [Except.ok.injEq] at h
      subst h
      exact hg
    · split at h
      · rw [Except.ok.injEq] at h
        subst h
        exact hg
      · split at h
        · rw [Except.ok.injEq] at h
          subst h
          exact hg
        · split at h
          · rw [Except.ok.injEq] at h
            subst h
            exact hg
          · split at h
            · rw [Except.ok.injEq] at h
              subst h
              exact hg
            · split at h
              · rw [Except.ok.injEq] at h
                subst h
                exact hg
              · split at h
                · rw [Except.ok.injEq] at h
                  subst h
                  exact hg
                · split at h
                  · exact absurd h (by simp)
                  · dsimp only at h
                    split at h
                    · exact absurd h (by simp)
                    · rename_i g6 heq6
                      have hg6 : GameInv g6 := by
                        split at heq6
                        · refine inv_report _ _ _ ?_ heq6
                          refine inv_update_player _ _ ?_
                            (fun _p _ hp => player_inv_set_kill_cooldown hp)
                          split
                          · refine inv_update_player _ _ ?_
                              (fun _p _ hp => player_inv_clear_following hp)
                            split
                            · refine inv_update_player _ _ ?_
                                (fun _p _ hp => player_inv_clear_following hp)
                              refine inv_update_player _ _ ?_
                                (fun _p _ hp => player_inv_erase_follower target hp)
                              exact inv_update_player _ _ (game_inv_set_kwh _ hg)
                                (fun _p _ hp => player_inv_fields rfl rfl rfl rfl rfl hp)
                            · exact inv_update_player _ _ (game_inv_set_kwh _ hg)
                                (fun _p _ hp => player_inv_fields rfl rfl rfl rfl rfl hp)
                          · split
                            · refine inv_update_player _ _ ?_
                                (fun _p _ hp => player_inv_clear_following hp)
                              refine inv_update_player _ _ ?_
                                (fun _p _ hp => player_inv_erase_follower target hp)
                              exact inv_update_player _ _ (game_inv_set_kwh _ hg)
                                (fun _p _ hp => player_inv_fields rfl rfl rfl rfl rfl hp)
                            · exact inv_update_player _ _ (game_inv_set_kwh _ hg)
                                (fun _p _ hp => player_inv_fields rfl rfl rfl rfl rfl hp)
                        · rw [Except.ok.injEq] at heq6
                          subst heq6
                          refine inv_update_player _ _ ?_
                            (fun _p _ hp => player_inv_set_kill_cooldown hp)
                          split
                          · refine inv_update_player _ _ ?_
                              (fun _p _ hp => player_inv_clear_following hp)
                            split
                            · refine inv_update_player _ _ ?_
                                (fun _p _ hp => player_inv_clear_following hp)
                              refine inv_update_player _ _ ?_
                                (fun _p _ hp => player_inv_erase_follower target hp)
                              exact inv_update_player _ _ (game_inv_set_kwh _ hg)
                                (fun _p _ hp => player_inv_fields rfl rfl rfl rfl rfl hp)
                            · exact inv_update_player _ _ (game_inv_set_kwh _ hg)
                                (fun _p _ hp => player_inv_fields rfl rfl rfl rfl rfl hp)
                          · split
                            · refine inv_update_player _ _ ?_
                                (fun _p _ hp => player_inv_clear_following hp)
                              refine inv_update_player _ _ ?_
                                (fun _p _ hp => player_inv_erase_follower target hp)
                              exact inv_update_player _ _ (game_inv_set_kwh _ hg)
                                (fun _p _ hp => player_inv_fields rfl rfl rfl rfl rfl hp)
                            · exact inv_update_player _ _ (game_inv_set_kwh _ hg)
                                (fun _p _ hp => player_inv_fields rfl rfl rfl rfl rfl hp)
                      split at h
                      · exact inv_report _ _ _ hg6 h
                      · rw [Except.ok.injEq] at h
                        subst h
                        exact hg6

theorem inv_apply_report {g g' : Game} (reporter : String) (db : Option (List String))
    (w : Option String) (hg : GameInv g)
    (h : apply_report g reporter db w = Except.ok g') : GameInv g' := by
  unfold apply_report at h
  split at h
  · rw [Except.ok.injEq] at h
    subst h
    exact hg
  · split at h
    · rw [Except.ok.injEq] at h
      subst h
      exact hg
    · exact inv_report _ _ _ hg h

theorem follower_fold_inv (l : List String) (ldr : String) (g : Game) (hg : GameInv g) :
    GameInv (l.foldl (fun gg f => update_player gg f (fun p =>
      { p with following_player := Option.some ldr, player_following := [],
               state := PlayerState.FOLLOWING })) g) := by
  induction l generalizing g with
  | nil => exact hg
  | cons x t ih =>
    rw [List.foldl_cons]
    exact ih _ (inv_update_player x _ hg
      (fun _p _ hp => player_inv_follower_form ldr hp))

theorem inv_assign_group {g : Game} (leader : String) (followers : List String)
    (hg : GameInv g) : GameInv (assign_group g leader followers) := by
  unfold assign_group
  exact follower_fold_inv followers leader _
    (inv_update_player leader _ hg (fun _p _ hp => player_inv_leader_form followers hp))

theorem inv_reroll_group_leader {g : Game} (player : String) (include_self : Bool)
    (new_leader : String) (hg : GameInv g) :
    GameInv (reroll_group_leader g player include_self new_leader) := by
  unfold reroll_group_leader
  split
  · exact hg
  · split
    · exact hg
    · split
      · exact hg
      · dsimp only
        split
        all_goals
          split
          · exact hg
          · split
            · exact hg
            · exact follower_fold_inv _ new_leader _
                (inv_update_player new_leader _ hg
                  (fun _p _ hp => player_inv_leader_form _ hp))

theorem inv_apply_action {g g' : Game} (player : String) (a : Action)
    (hfo : is_follow a = false) (hg : GameInv g)
    (h : apply_action g player a = Except.ok g') : GameInv g' := by
  have hlog : GameInv (log_action g player a) := game_inv_log_action g player a hg
  cases a with
  | none =>
    unfold apply_action at h
    rw [Except.ok.injEq] at h
    subst h
    exact hg
  | move dest =>
    unfold apply_action at h
    rw [Except.ok.injEq] at h
    subst h
    exact inv_apply_move _ _ hlog
  | start_task task =>
    unfold apply_action at h
    rw [Except.ok.injEq] at h
    subst h
    exact inv_apply_start_task _ _ hlog
  | work_task_tick =>
    unfold apply_action at h
    rw [Except.ok.injEq] at h
    subst h
    exact inv_apply_work_task_tick _ hlog
  | kill t sr srw wr =>
    unfold apply_action at h
    exact inv_apply_kill _ _ _ _ _ hlog h
  | report db w =>
    unfold apply_action at h
    exact inv_apply_report _ _ _ hlog h
  | set_state s =>
    unfold apply_action at h
    rw [Except.ok.injEq] at h
    subst h
    exact inv_apply_set_state _ _ hlog
  | follow l => exact absurd hfo (by simp [is_follow])

theorem inv_policy_step {g g' : Game} (hg : GameInv g) (h : PolicyStep g g') :
    GameInv g' := by
  cases h with
  | tick_phase => exact inv_tick_cooldowns (game_inv_set_tick g _ hg)
  | engine g2 player a hf hap => exact inv_apply_action player a hf hg hap
  | groups leader followers => exact inv_assign_group leader followers hg
  | reroll player include_self new_leader =>
    exact inv_reroll_group_leader player include_self new_leader hg

/-! ### Suspicion-score bookkeeping -/

theorem bump_keys (sc : List (String × Int)) (n : String) :
    (bump sc n).map Prod.fst = sc.map Prod.fst := by
  unfold bump
  induction sc with
  | nil => rfl
  | cons x t ih =>
    simp only [List.map_cons, ih]
    by_cases h : x.1 = n
    · rw [if_pos h]
    · rw [if_neg h]

theorem score_of_bump_self (sc : List (String × Int)) (n : String)
    (h : n ∈ sc.map Prod.fst) : score_of (bump sc n) n = score_of sc n + 1 := by
  unfold bump score_of
  induction sc with
  | nil => simp at h
  | cons x t ih =>
    by_cases hx : x.1 = n
    · simp only [List.map_cons, if_pos hx]
      rw [List.find?_cons_of_pos _ (by simp [hx]), List.find?_cons_of_pos _ (by simp [hx])]
    · simp only [List.map_cons, if_neg hx]
      rw [List.find?_cons_of_neg _ (by simp [hx]), List.find?_cons_of_neg _ (by simp [hx])]
      apply ih
      simp only [List.map_cons, List.mem_cons] at h
      rcases h with h | h
      · exact absurd h.symm hx
      · exact h

theorem score_of_bump_ne (sc : List (String × Int)) (m n : String) (hmn : m ≠ n) :
    score_of (bump sc m) n = score_of sc n := by
  unfold bump score_of
  induction sc with
  | nil => rfl
  | cons x t ih =>
    by_cases hx : x.1 = n
    · have hxm : ¬ x.1 = m := fun hh => hmn (by rw [← hh, hx])
      simp only [List.map_cons, if_neg hxm]
      rw [List.find?_cons_of_pos _ (by simp [hx]), List.find?_cons_of_pos _ (by simp [hx])]
    · by_cases hxm : x.1 = m
      · simp only [List.map_cons, if_pos hxm]
        rw [List.find?_cons_of_neg _ (by simp [hx]), List.find?_cons_of_neg _ (by simp [hx])]
        exact ih
      · simp only [List.map_cons, if_neg hxm]
        rw [List.find?_cons_of_neg _ (by simp [hx]), List.find?_cons_of_neg _ (by simp [hx])]
        exact ih

theorem foldl_keys {β : Type _} (step : List (String × Int) → β → List (String × Int))
    (hstep : ∀ sc b, (step sc b).map Prod.fst = sc.map Prod.fst) (l : List β)
    (sc : List (String × Int)) :
    (l.foldl step sc).map Prod.fst = sc.map Prod.fst := by
  induction l generalizing sc with
  | nil => rfl
  | cons x t ih => rw [List.foldl_cons, ih, hstep]

theorem sus_colocation_step_keys (g : Game) (ds : List String)
    (sc : List (String × Int)) (q : String) :
    (sus_colocation_step g ds sc q).map Prod.fst = sc.map Prod.fst := by
  unfold sus_colocation_step
  split
  · exact bump_keys sc q
  · rfl

theorem sus_movement_step_keys (g : Game) (kt : Int) (kn : String)
    (sc : List (String × Int)) (e : MovementHistory) :
    (sus_movement_step g kt kn sc e).map Prod.fst = sc.map Prod.fst := by
  unfold sus_movement_step
  split
  · rfl
  · split
    · exact bump_keys sc e.subject
    · rfl

theorem sus_followers_step_keys (ds : List String) (sc : List (String × Int)) (p : Player) :
    (sus_followers_step ds sc p).map Prod.fst = sc.map Prod.fst := by
  unfold sus_followers_step
  split
  · rfl
  · split
    · exact bump_keys sc p.name
    · split
      · exact bump_keys sc p.name
      · rfl

theorem sus_vouch_step_keys (sc : List (String × Int)) (p : Player) :
    (sus_vouch_step sc p).map Prod.fst = sc.map Prod.fst := by
  unfold sus_vouch_step
  induction sc with
  | nil => rfl
  | cons x t ih =>
    simp only [List.map_cons, ih]
    split
    · rfl
    · rfl

theorem sus_colocation_keys (g : Game) (ds : List String) (kn : Node)
    (sc : List (String × Int)) :
    (sus_colocation g ds kn sc).map Prod.fst = sc.map Prod.fst :=
  foldl_keys _ (sus_colocation_step_keys g ds) kn.players sc

theorem sus_movement_keys (g : Game) (kt : Int) (kn : String)
    (sc : List (String × Int)) :
    (sus_movement g kt kn sc).map Prod.fst = sc.map Prod.fst :=
  foldl_keys _ (sus_movement_step_keys g kt kn) g.movement_history sc

theorem sus_followers_keys (g : Game) (ds : List String) (sc : List (String × Int)) :
    (sus_followers g ds sc).map Prod.fst = sc.map Prod.fst :=
  foldl_keys _ (sus_followers_step_keys ds) g.players sc

/-- The exact per-record accounting of the movement-correlation loop: the
score of `n` grows by one for every record credited to `subject = n` whose
both recorded players are alive and which passes the source's asymmetric
window test. -/
theorem sus_movement_fold (g : Game) (kt : Int) (kn : String)
    (l : List MovementHistory) :
    ∀ (sc : List (String × Int)) (n : String), n ∈ sc.map Prod.fst →
      score_of (l.foldl (sus_movement_step g kt kn) sc) n =
        score_of sc n + ((l.filter (fun e =>
          player_alive g e.subject && player_alive g e.witness && (e.subject == n) &&
            movement_correlated kt kn e)).length : Int) := by
  induction l with
  | nil =>
    intro sc n _
    simp
  | cons e t ih =>
    intro sc n hn
    rw [List.foldl_cons]
    by_cases h1 : player_alive g e.subject = false ∨ player_alive g e.witness = false
    · have hstep : sus_movement_step g kt kn sc e = sc := by
        unfold sus_movement_step
        rw [if_pos h1]
      have hpred : (player_alive g e.subject && player_alive g e.witness &&
          (e.subject == n) && movement_correlated kt kn e) = false := by
        rcases h1 with h | h <;> simp [h]
      rw [hstep, ih sc n hn, List.filter_cons, hpred]
      simp
    · have hs : player_alive g e.subject = true := by
        rcases Bool.dichotomy (player_alive g e.subject) with h | h
        · exact absurd (Or.inl h) h1
        · exact h
      have hw : player_alive g e.witness = true := by
        rcases Bool.dichotomy (player_alive g e.witness) with h | h
        · exact absurd (Or.inr h) h1
        · exact h
      by_cases h2 : movement_correlated kt kn e = true
      · have hstep : sus_movement_step g kt kn sc e = bump sc e.subject := by
          unfold sus_movement_step
          rw [if_neg h1, if_pos h2]
        by_cases h3 : e.subject = n
        · have hpred : (player_alive g e.subject && player_alive g e.witness &&
              (e.subject == n) && movement_correlated kt kn e) = true := by
            rw [hs, hw, h2]
            simp [h3]
          rw [hstep, ih (bump sc e.subject) n (by rw [bump_keys]; exact hn),
            h3, score_of_bump_self sc n hn, List.filter_cons, hpred]
          simp only [if_true, List.length_cons]
          push_cast
          ring
        · have hpred : (player_alive g e.subject && player_alive g e.witness &&
              (e.subject == n) && movement_correlated kt kn e) = false := by
            simp [h3]
          rw [hstep, ih (bump sc e.subject) n (by rw [bump_keys]; exact hn),
            score_of_bump_ne sc e.subject n h3, List.filter_cons, hpred]
          simp
      · have hstep : sus_movement_step g kt kn sc e = sc := by
          unfold sus_movement_step
          rw [if_neg h1, if_neg h2]
        have hpred : (player_alive g e.subject && player_alive g e.witness &&
            (e.subject == n) && movement_correlated kt kn e) = false := by
          simp [h2]
        rw [hstep, ih sc n hn, List.filter_cons, hpred]
        simp

theorem score_of_vouch_step_self (sc : List (String × Int)) (p : Player) (n : String)
    (hv : n ∈ p.vouch_history) (ha : p.state ≠ PlayerState.DEAD)
    (hn : n ∈ sc.map Prod.fst) : score_of (sus_vouch_step sc p) n = 0 := by
  unfold sus_vouch_step score_of
  induction sc with
  | nil => simp at hn
  | cons x t ih =>
    rw [List.map_cons]
    by_cases hx : x.1 = n
    · rw [if_pos ⟨by rw [hx]; exact hv, ha⟩,
        List.find?_cons_of_pos _ (by simp [hx])]
    · have hhead : ((if x.1 ∈ p.vouch_history ∧ p.state ≠ PlayerState.DEAD then
          ((x.1 : String), (0 : Int)) else x)).1 = x.1 := by
        split <;> rfl
      rw [List.find?_cons_of_neg _ (by simp [hhead, hx])]
      apply ih
      simp only [List.map_cons, List.mem_cons] at hn
      rcases hn with h | h
      · exact absurd h.symm hx
      · exact h

theorem score_of_vouch_step_zero (sc : List (String × Int)) (p : Player) (n : String) :
    score_of sc n = 0 → score_of (sus_vouch_step sc p) n = 0 := by
  unfold sus_vouch_step score_of
  induction sc with
  | nil => exact fun _ => rfl
  | cons x t ih =>
    intro h0
    rw [List.map_cons]
    by_cases hx : x.1 = n
    · by_cases hcond : x.1 ∈ p.vouch_history ∧ p.state ≠ PlayerState.DEAD
      · rw [if_pos hcond, List.find?_cons_of_pos _ (by simp [hx])]
      · rw [if_neg hcond, List.find?_cons_of_pos _ (by simp [hx])]
        rw [List.find?_cons_of_pos _ (by simp [hx])] at h0
        exact h0
    · have hhead : ((if x.1 ∈ p.vouch_history ∧ p.state ≠ PlayerState.DEAD then
          ((x.1 : String), (0 : Int)) else x)).1 = x.1 := by
        split <;> rfl
      rw [List.find?_cons_of_neg _ (by simp [hhead, hx])]
      apply ih
      rw [List.find?_cons_of_neg _ (by simp [hx])] at h0
      exact h0

theorem sus_vouch_fold_zero_stays (l : List Player) (sc : List (String × Int)) (n : String)
    (h0 : score_of sc n = 0) : score_of (l.foldl sus_vouch_step sc) n = 0 := by
  induction l generalizing sc with
  | nil => exact h0
  | cons p t ih =>
    rw [List.foldl_cons]
    exact ih _ (score_of_vouch_step_zero _ p n h0)

theorem sus_vouch_fold_zero (q : Player) (n : String)
    (hqa : q.state ≠ PlayerState.DEAD) (hv : n ∈ q.vouch_history) :
    ∀ (l : List Player) (sc : List (String × Int)), q ∈ l → n ∈ sc.map Prod.fst →
      score_of (l.foldl sus_vouch_step sc) n = 0 := by
  intro l
  induction l with
  | nil =>
    intro sc hq _
    simp at hq
  | cons p t ih =>
    intro sc hq hn
    rw [List.foldl_cons]
    rcases List.mem_cons.mp hq with h | h
    · subst h
      exact sus_vouch_fold_zero_stays t _ n (score_of_vouch_step_self sc q n hv hqa hn)
    · exact ih _ h (by rw [sus_vouch_step_keys]; exact hn)

/-! ### Action-history accounting -/

theorem apply_set_state_history (g : Game) (player : String) (s : PlayerState) :
    (apply_set_state g player s).action_history = g.action_history := by
  unfold apply_set_state
  split
  · rfl
  · split <;> rfl

theorem apply_start_task_history (g : Game) (player : String) (task : Task) :
    (apply_start_task g player task).action_history = g.action_history := by
  unfold apply_start_task
  split
  · rfl
  · split
    · rfl
    · split <;> rfl

theorem apply_move_history (g : Game) (player dest : String) :
    (apply_move g player dest).action_history = g.action_history := by
  unfold apply_move
  repeat' split
  all_goals try dsimp only
  all_goals repeat' split
  all_goals rfl

theorem vouch_fold_history (l : List String) (player : String) (g : Game) :
    (l.foldl (fun gg fn => update_player gg fn (fun q =>
      { q with vouch_history :=
          if player ∈ q.vouch_history then q.vouch_history
          else q.vouch_history ++ [player] })) g).action_history = g.action_history := by
  induction l generalizing g with
  | nil => rfl
  | cons x t ih => rw [List.foldl_cons, ih]; rfl

theorem apply_work_task_tick_history (g : Game) (player : String) :
    (apply_work_task_tick g player).action_history = g.action_history := by
  unfold apply_work_task_tick
  split
  · rfl
  · split
    · rfl
    · split
      · rfl
      · split
        · rfl
        · split
          · rfl
          · dsimp only
            rw [update_player_action_history]
            split
            · rw [vouch_fold_history]
              repeat' split
              all_goals rfl
            · repeat' split
              all_goals rfl

theorem apply_follow_history (g : Game) (player : String) (leader : Option String) :
    (apply_follow g player leader).action_history = g.action_history := by
  unfold apply_follow
  repeat' split
  all_goals try dsimp only
  all_goals rfl

theorem report_witnessed_history (g : Game) (r : String) (db : Option (List String))
    (w : String) :
    ∃ t, (report_witnessed g r db w).action_history = g.action_history ++ t := by
  unfold report_witnessed
  split_ifs
  · exact ⟨_, rfl⟩
  · exact ⟨_, rfl⟩
  · exact ⟨_, rfl⟩
  · exact ⟨[], by rw [List.append_nil]⟩

theorem report_body_history {g g' : Game} (r : String) (db : Option (List String))
    (w : Option String) (h : report_body g r db w = Except.ok g') :
    ∃ t, g'.action_history = g.action_history ++ t := by
  unfold report_body at h
  dsimp only at h
  split at h
  · exact absurd h (by simp)
  · split at h
    · rw [Except.ok.injEq] at h
      subst h
      exact ⟨_, rfl⟩
    · split at h
      · exact absurd h (by simp)
      · split at h
        · exact absurd h (by simp)
        · split at h
          · exact absurd h (by simp)
          · split at h
            · rw [Except.ok.injEq] at h
              subst h
              exact ⟨_, rfl⟩
            · split at h
              · rw [Except.ok.injEq] at h
                subst h
                exact ⟨_, rfl⟩
              · rw [Except.ok.injEq] at h
                subst h
                exact ⟨_, rfl⟩

theorem report_history {g g' : Game} (r : String) (db : Option (List String))
    (w : Option String) (h : report g r db w = Except.ok g') :
    ∃ t, g'.action_history = g.action_history ++ t := by
  cases w with
  | some x =>
    unfold report at h
    rw [Except.ok.injEq] at h
    subst h
    obtain ⟨t, ht⟩ := report_witnessed_history (mark_bodies g db) r db x
    exact ⟨t, by rw [ht, mark_bodies_action_history]⟩
  | none =>
    unfold report at h
    obtain ⟨t, ht⟩ := report_body_history r db Option.none h
    exact ⟨t, by rw [ht, mark_bodies_action_history]⟩

theorem apply_kill_history {g g' : Game} (attacker target : String) (sr : Bool)
    (srw wr : Option String) (h : apply_kill g attacker target sr srw wr = Except.ok g') :
    ∃ t, g'.action_history = g.action_history ++ t := by
  unfold apply_kill at h
  split at h
  · rw [Except.ok.injEq] at h
    subst h
    exact ⟨[], by rw [List.append_nil]⟩
  · split at h
    · rw [Except.ok.injEq] at h
      subst h
      exact ⟨[], by rw [List.append_nil]⟩
    · split at h
      · rw [Except.ok.injEq] at h
        subst h
        exact ⟨[], by rw [List.append_nil]⟩
      · split at h
        · rw [Except.ok.injEq] at h
          subst h
          exact ⟨[], by rw [List.append_nil]⟩
        · split at h
          · rw [Except.ok.injEq] at h
            subst h
            exact ⟨[], by rw [List.append_nil]⟩
          · split at h
            · rw [Except.ok.injEq] at h
              subst h
              exact ⟨[], by rw [List.append_nil]⟩
            · split at h
              · rw [Except.ok.injEq] at h
                subst h
                exact ⟨[], by rw [List.append_nil]⟩
              · split at h
                · rw [Except.ok.injEq] at h
                  subst h
                  exact ⟨[], by rw [List.append_nil]⟩
                · split at h
                  · exact absurd h (by simp)
                  · dsimp only at h
                    split at h
                    · exact absurd h (by simp)
                    · rename_i g6 heq6
                      have hg6 : ∃ t, g6.action_history = g.action_history ++ t := by
                        split at heq6
                        · obtain ⟨t, ht⟩ := report_history _ _ _ heq6
                          refine ⟨t, ?_⟩
                          rw [ht]
                          congr 1
                          repeat' split
                          all_goals rfl
                        · rw [Except.ok.injEq] at heq6
                          subst heq6
                          refine ⟨[], ?_⟩
                          rw [List.append_nil]
                          repeat' split
                          all_goals rfl
                      obtain ⟨t6, ht6⟩ := hg6
                      split at h
                      · obtain ⟨t2, ht2⟩ := report_history _ _ _ h
                        exact ⟨t6 ++ t2, by rw [ht2, ht6, List.append_assoc]⟩
                      · rw [Except.ok.injEq] at h
                        subst h
                        exact ⟨t6, ht6⟩

theorem apply_report_history {g g' : Game} (reporter : String)
    (db : Option (List String)) (w : Option String)
    (h : apply_report g reporter db w = Except.ok g') :
    ∃ t, g'.action_history = g.action_history ++ t := by
  unfold apply_report at h
  split at h
  · rw [Except.ok.injEq] at h
    subst h
    exact ⟨[], by rw [List.append_nil]⟩
  · split at h
    · rw [Except.ok.injEq] at h
      subst h
      exact ⟨[], by rw [List.append_nil]⟩
    · exact report_history _ _ _ h

/-! ### The claims -/

/-- Claim C1: the specification says every Policy-proposed action either fully
commits or is silently declined, never raising a propagating failure, and in
particular that a `ReportAction` with no witnessed player and a dead-body list
matching no Kill Witness Record is a silent decline.  Evaluating the engine at
exactly that input — a living reporter, a `ReportAction` with an empty
dead-body list, a kill history it matches nothing of — shows the dispatch
raising (`relevant[0]` on an empty list), embedded as `Except.error ()`: the
claim correctly states the design intent, and the code contradicts it. -/
theorem C1_unmatched_body_report_raises :
    apply_action c1_game "A" (Action.report (Option.some []) Option.none) =
      Except.error () := rfl

/-- Claim C2 counterexample: a movement record two ticks before the kill,
arriving at the kill location, lies inside the claimed symmetric 2-tick window
(`movement_correlated_spec`), yet the source's asymmetric test rejects it and
the movement-correlation stage leaves the subject's score unchanged — the
claimed "+1 exactly when |record tick - kill tick| <= 2 and the location
matches" is false of the code. -/
theorem C2_window_counterexample :
    movement_correlated_spec 2 "K" c2_entry = true ∧
    movement_correlated 2 "K" c2_entry = false ∧
    sus_movement c2_game 2 "K" [("B", 0)] = [("B", 0)] :=
  ⟨rfl, rfl, rfl⟩

/-- Claim C2 (amended): in body-report suspicion scoring, the record's
`subject` receives +1 exactly for each movement record whose two recorded
players are both alive and which passes the source's asymmetric window test:
`record tick - kill tick ≤ 2` for a departure from the kill location, or
`kill tick - record tick < 2` for an arrival at it. -/
theorem C2_movement_window (g : Game) (kill_tick : Int) (kill_node : String)
    (scores : List (String × Int)) (n : String) (hn : n ∈ scores.map Prod.fst) :
    score_of (sus_movement g kill_tick kill_node scores) n =
      score_of scores n + ((g.movement_history.filter (fun e =>
        player_alive g e.subject && player_alive g e.witness && (e.subject == n) &&
          movement_correlated kill_tick kill_node e)).length : Int) :=
  sus_movement_fold g kill_tick kill_node g.movement_history scores n hn

/-- Claim C2 witness: the amended accounting evaluated on the concrete
two-player state. -/
theorem C2_movement_window_witness :
    score_of (sus_movement c2_game 2 "K" [("B", 0)]) "B" =
      score_of [("B", 0)] "B" + ((c2_game.movement_history.filter (fun e =>
        player_alive c2_game e.subject && player_alive c2_game e.witness &&
          (e.subject == "B") && movement_correlated 2 "K" e)).length : Int) :=
  C2_movement_window c2_game 2 "K" [("B", 0)] "B" (by decide)

/-- Claim C3: the specification says a successful move appends, for each other
living occupant `w` of the destination, a record with `witness = w` and
`mover = m`.  Evaluating the move of `M` from `A` to `B` (witnessed by the
living occupant `W`) shows the source stores the mover `M` in the `witness`
field and the onlooker `W` in the `subject` field: the constructor call
`MovementHistory(tick, player, witness, src, dest)` passes the two players
positionally swapped against the dataclass field names, so the claim is right
about the intended record and the code is wrong. -/
theorem C3_movement_record_fields :
    (apply_move c3_game "M" "B").movement_history =
      [{ tick := 4, witness := "M", subject := "W", previous := "A", location := "B" }] :=
  rfl

/-- Claim C4 counterexample: a witnessed report that ties (reporter `A`
against one co-located living impostor `B`, one player per side) returns with
the game unchanged — no structured outcome record is appended in the tie
branch, so "all three branches append an outcome record" is false. -/
theorem C4_tie_appends_no_outcome :
    report c4_game "A" Option.none (Option.some "B") = Except.ok c4_game ∧
    c4_game.action_history = [] :=
  ⟨rfl, rfl⟩

/-- Claim C4 (amended): a witnessed-report resolution appends exactly one
structured outcome record in the impostor-majority and crewmate-majority
branches, and appends nothing in the tie branch. -/
theorem C4_outcome_logging (g : Game) (reporter w : String)
    (db : Option (List String)) :
    ∃ v, (report_witnessed g reporter db w).action_history =
      g.action_history ++
        (if ((tally_imposters g reporter).length : Int) -
              ((tally_crewmates g reporter).length : Int) ≥ 1 ∨
            ((tally_crewmates g reporter).length : Int) -
              ((tally_imposters g reporter).length : Int) ≥ 1 then
          [(g.tick_counter, reporter,
            LogEntry.outcome reporter (Option.some w) db (Option.some v))]
        else []) := by
  unfold report_witnessed
  by_cases h1 : ((tally_imposters g reporter).length : Int) -
      ((tally_crewmates g reporter).length : Int) ≥ 1
  · refine ⟨reporter, ?_⟩
    rw [if_pos h1, if_pos (Or.inl h1)]
    rfl
  · rw [if_neg h1]
    by_cases h2 : ((tally_crewmates g reporter).length : Int) -
        ((tally_imposters g reporter).length : Int) ≥ 1
    · rw [if_pos h2]
      by_cases h3 : is_imposter g reporter = true
      · refine ⟨reporter, ?_⟩
        rw [if_pos h3, if_pos (Or.inr h2)]
        rfl
      · refine ⟨w, ?_⟩
        rw [if_neg h3, if_pos (Or.inr h2)]
        rfl
    · refine ⟨reporter, ?_⟩
      rw [if_neg h2, if_neg (not_or.mpr ⟨h1, h2⟩), List.append_nil]

/-- Claim C5 counterexample: legally starting the queued task `trash` while
one elapsed tick of progress on `wires` is outstanding leaves
`ticks_elapsed = 1` — starting a task does not clear elapsed-tick progress,
contrary to the claim. -/
theorem C5_start_does_not_clear_progress :
    (find_player (apply_start_task c5_game "P" c5_task_b) "P").map Player.ticks_elapsed =
      Option.some 1 ∧
    (find_player (apply_start_task c5_game "P" c5_task_b) "P").map Player.current_task =
      Option.some (Option.some c5_task_b) :=
  ⟨rfl, rfl⟩

/-- Claim C5 (amended): a legally applied start-task action (the task is
queued, or no task is active) makes the started task the active task and
removes it from a crewmate's queue, but leaves the elapsed-tick progress
unchanged (progress is cleared only on task completion). -/
theorem C5_start_task_effects (g : Game) (player : String) (task : Task) (pl : Player)
    (hfind : find_player g player = Option.some pl)
    (halive : pl.state ≠ PlayerState.DEAD)
    (hlegal : task ∈ pl.tasks ∨ pl.current_task = Option.none) :
    ∃ pl', find_player (apply_start_task g player task) player = Option.some pl' ∧
      pl'.current_task = Option.some task ∧
      (¬ pl.imposter → pl'.tasks = pl.tasks.erase task) ∧
      (pl.imposter = true → pl'.tasks = pl.tasks) ∧
      pl'.ticks_elapsed = pl.ticks_elapsed := by
  have hguard : ¬ (task ∉ pl.tasks ∧ pl.current_task ≠ Option.none) := by
    rcases hlegal with h | h
    · exact fun hc => hc.1 h
    · exact fun hc => hc.2 h
  unfold apply_start_task
  rw [hfind]
  dsimp only
  rw [if_neg halive, if_neg hguard,
    find_player_update g player player _ (fun p => by split <;> rfl),
    if_pos rfl, hfind, Option.map_some']
  refine ⟨_, rfl, ?_, ?_, ?_, ?_⟩
  · split <;> rfl
  · intro h
    by_cases hmem : task ∈ pl.tasks
    · rw [if_pos ⟨h, hmem⟩]
    · rw [if_neg (fun hc => hmem hc.2), List.erase_of_not_mem hmem]
  · intro h
    rw [if_neg (fun hc => hc.1 (by simp [h]))]
  · split <;> rfl

/-- Claim C5 witness: the amended statement evaluated at the concrete
mid-progress crewmate. -/
theorem C5_start_task_effects_witness :
    ∃ pl', find_player (apply_start_task c5_game "P" c5_task_b) "P" = Option.some pl' ∧
      pl'.current_task = Option.some c5_task_b ∧
      (¬ c5_player.imposter → pl'.tasks = c5_player.tasks.erase c5_task_b) ∧
      (c5_player.imposter = true → pl'.tasks = c5_player.tasks) ∧
      pl'.ticks_elapsed = c5_player.ticks_elapsed :=
  C5_start_task_effects c5_game "P" c5_task_b c5_player rfl (by decide)
    (Or.inl (by decide))

/-- Claim C6: for a body report whose reported set matches at least one Kill
Witness Record, the resolver takes the head of the filtered history — with the
history in non-decreasing tick order (the order the engine appends in), that is
a record of earliest tick among the matches — and when that record has direct
witnesses the recorded killer, and only the recorded killer, is eliminated and
marked voted-out, with no suspicion scoring involved. -/
theorem C6_direct_witness_elimination (g : Game) (reporter : String)
    (db : Option (List String)) (e : KillWitnessHistory) (t : List KillWitnessHistory)
    (hsort : g.kill_witness_history.Pairwise (fun a b => a.tick ≤ b.tick))
    (hrel : g.kill_witness_history.filter
        (fun x => decide (x.victim ∈ db.getD [])) = e :: t)
    (hw : e.witnesses ≠ []) :
    (∀ e' ∈ g.kill_witness_history.filter (fun x => decide (x.victim ∈ db.getD [])),
        e.tick ≤ e'.tick) ∧
    report g reporter db Option.none =
      Except.ok (log_report_outcome (mark_voted (mark_bodies g db) e.killer) reporter
        (Option.some e.killer) db (Option.some e.killer)) ∧
    status_of (log_report_outcome (mark_voted (mark_bodies g db) e.killer) reporter
        (Option.some e.killer) db (Option.some e.killer)) e.killer =
      (status_of g e.killer).map (fun _ => (PlayerState.DEAD, true)) ∧
    (∀ n, n ≠ e.killer →
      status_of (log_report_outcome (mark_voted (mark_bodies g db) e.killer) reporter
        (Option.some e.killer) db (Option.some e.killer)) n = status_of g n) := by
  refine ⟨?_, ?_, ?_, ?_⟩
  · intro e' he'
    rw [hrel] at he'
    rcases List.mem_cons.mp he' with h | h
    · rw [h]
    · have hp : (e :: t).Pairwise (fun a b => a.tick ≤ b.tick) := by
        rw [← hrel]
        exact hsort.filter _
      exact List.rel_of_pairwise_cons hp h
  · unfold report
    dsimp only
    unfold report_body
    dsimp only
    rw [mark_bodies_kwh, hrel]
    dsimp only
    rw [if_pos hw]
  · rw [status_of_log, status_of_mark_voted_self, mark_bodies_status]
  · intro n hn
    rw [status_of_log, status_of_mark_voted_ne _ _ _ (Ne.symm hn), mark_bodies_status]

/-- Claim C6 witness: the direct-witness branch evaluated on a two-record
history whose earlier record (tick 2, killer `K`, victim `V`) carries the
direct witness `W`. -/
theorem C6_direct_witness_elimination_witness :
    report c6_game "R" (Option.some ["V"]) Option.none =
      Except.ok (log_report_outcome
        (mark_voted (mark_bodies c6_game (Option.some ["V"])) "K")
        "R" (Option.some "K") (Option.some ["V"]) (Option.some "K")) :=
  (C6_direct_witness_elimination c6_game "R" (Option.some ["V"])
    { tick := 2, killer := "K", victim := "V", witnesses := ["W"] } []
    (by decide) (by decide) (by decide)).2.1

/-- Claim C7: a witnessed report tallies living impostors against living
crewmates co-located with the reporter, the reporter counted on its own side:
an impostor majority eliminates the reporter (marked voted-out); a crewmate
majority eliminates the reporter when the reporter is an impostor and
otherwise the named witnessed player; an exact tie changes nothing. -/
theorem C7_witnessed_vote (g : Game) (reporter w : String)
    (db : Option (List String)) :
    (((tally_imposters g reporter).length : Int) -
        ((tally_crewmates g reporter).length : Int) ≥ 1 →
      report_witnessed g reporter db w =
        log_report_outcome (mark_voted g reporter) reporter (Option.some w) db
          (Option.some reporter)) ∧
    (((tally_crewmates g reporter).length : Int) -
        ((tally_imposters g reporter).length : Int) ≥ 1 →
      report_witnessed g reporter db w =
        (if is_imposter g reporter then
          log_report_outcome (mark_voted g reporter) reporter (Option.some w) db
            (Option.some reporter)
        else
          log_report_outcome (mark_voted g w) reporter (Option.some w) db
            (Option.some w))) ∧
    ((tally_imposters g reporter).length = (tally_crewmates g reporter).length →
      report_witnessed g reporter db w = g) := by
  refine ⟨?_, ?_, ?_⟩
  · intro h1
    unfold report_witnessed
    rw [if_pos h1]
  · intro h2
    unfold report_witnessed
    rw [if_neg (by omega), if_pos h2]
  · intro h3
    unfold report_witnessed
    rw [if_neg (by omega), if_neg (by omega)]

/-- Claim C7 witness: the crewmate-majority branch evaluated on reporter `R`
(crewmate) co-located with impostor `B` and crewmate `D`. -/
theorem C7_witnessed_vote_witness :
    report_witnessed c7_game "R" Option.none "B" =
      (if is_imposter c7_game "R" then
        log_report_outcome (mark_voted c7_game "R") "R" (Option.some "B") Option.none
          (Option.some "R")
      else
        log_report_outcome (mark_voted c7_game "B") "R" (Option.some "B") Option.none
          (Option.some "B")) :=
  (C7_witnessed_vote c7_game "R" "B" Option.none).2.1 (by decide)

/-- Claim C8: at the moment candidates are selected — after the co-location,
movement-correlation and leader/follower stages and the final vouch pass —
any living player vouched-for by a still-living player has suspicion score 0,
whatever the earlier stages accumulated. -/
theorem C8_vouch_immunity (g : Game) (kill_tick : Int) (dead_set : List String)
    (kill_node : Node) (n : String) (q : Player) (hq : q ∈ g.players)
    (hqa : q.state ≠ PlayerState.DEAD) (hv : n ∈ q.vouch_history)
    (hn : n ∈ (sus_base g).map Prod.fst) :
    score_of (sus_scores g kill_tick dead_set kill_node) n = 0 := by
  unfold sus_scores sus_vouch
  apply sus_vouch_fold_zero q n hqa hv g.players _ hq
  rw [sus_followers_keys, sus_movement_keys, sus_colocation_keys]
  exact hn

/-- Claim C8 witness: `N` stands in the kill node (earning a co-location +1)
but is vouched-for by the living `Q`, so the final score is 0. -/
theorem C8_vouch_immunity_witness :
    score_of (sus_scores c8_game 0 [] c8_kill_node) "N" = 0 :=
  C8_vouch_immunity c8_game 0 [] c8_kill_node "N" c8_q (by decide) (by decide)
    (by decide) (by decide)

/-- Claim C9 counterexample: the engine dispatches `FollowAction`
(`_apply_follow`, marked unused in the source) without maintaining the star
shape.  Starting from a state satisfying the invariant, `A` follows `B` and
then `B` follows `C`; afterwards `B` holds a leader reference (`C`) and a
non-empty follower list (`[A]`) at once, so the claimed invariant fails in a
state reachable by engine actions. -/
theorem C9_follow_breaks_star :
    apply_action c9_game "A" (Action.follow (Option.some "B")) = Except.ok c9_g1 ∧
    apply_action c9_g1 "B" (Action.follow (Option.some "C")) = Except.ok c9_g2 ∧
    GameInv c9_game ∧ ¬ GameInv c9_g2 :=
  ⟨rfl, rfl, by decide, by decide⟩

/-- Claim C9 (amended): in every state reachable from an invariant-satisfying
state through the per-tick cooldown phase, any completing engine action other
than `FollowAction`, and the policy's group assignment and leader-reroll
operations, every player's dislike weights stay in `[0, MAX_DISLIKE]`, both
cooldowns stay non-negative, and no player simultaneously holds a leader
reference and a non-empty follower list. -/
theorem C9_invariant_preserved (g g' : Game) (hg : GameInv g)
    (h : PolicyReachable g g') : GameInv g' := by
  induction h with
  | refl => exact hg
  | tail _hs step ih => exact inv_policy_step ih step

/-- Claim C9 witness: the invariant carried across one cooldown-phase step
from the concrete three-player state. -/
theorem C9_invariant_preserved_witness :
    GameInv (tick_cooldowns { c9_game with tick_counter := c9_game.tick_counter + 1 }) :=
  C9_invariant_preserved c9_game _ (by decide)
    (Relation.ReflTransGen.single (PolicyStep.tick_phase c9_game))

/-- Claim C10: a `NoneAction` returns before logging and leaves the action
log unchanged; every other action — legal or about to be declined by its
handler — first appends its `(tick, player, action)` entry, which therefore
prefixes whatever the handler itself appends. -/
theorem C10_log_before_validation (g : Game) (player : String) (a : Action) :
    (a = Action.none → apply_action g player a = Except.ok g) ∧
    (a ≠ Action.none → ∀ g', apply_action g player a = Except.ok g' →
      ∃ rest, g'.action_history =
        g.action_history ++ (g.tick_counter, player, LogEntry.act a) :: rest) := by
  constructor
  · intro h
    subst h
    rfl
  · intro hne g' h
    cases a with
    | none => exact absurd rfl hne
    | move dest =>
      unfold apply_action at h
      rw [Except.ok.injEq] at h
      subst h
      exact ⟨[], by rw [apply_move_history]; rfl⟩
    | start_task task =>
      unfold apply_action at h
      rw [Except.ok.injEq] at h
      subst h
      exact ⟨[], by rw [apply_start_task_history]; rfl⟩
    | work_task_tick =>
      unfold apply_action at h
      rw [Except.ok.injEq] at h
      subst h
      exact ⟨[], by rw [apply_work_task_tick_history]; rfl⟩
    | set_state s =>
      unfold apply_action at h
      rw [Except.ok.injEq] at h
      subst h
      exact ⟨[], by rw [apply_set_state_history]; rfl⟩
    | follow l =>
      unfold apply_action at h
      rw [Except.ok.injEq] at h
      subst h
      exact ⟨[], by rw [apply_follow_history]; rfl⟩
    | kill t sr srw wr =>
      unfold apply_action at h
      obtain ⟨t2, ht2⟩ := apply_kill_history _ _ _ _ _ h
      refine ⟨t2, ?_⟩
      rw [ht2]
      simp [log_action, List.append_assoc]
    | report db w =>
      unfold apply_action at h
      obtain ⟨t2, ht2⟩ := apply_report_history _ _ _ h
      refine ⟨t2, ?_⟩
      rw [ht2]
      simp [log_action, List.append_assoc]

/-- Claim C10 witness: a work-task tick (which the handler declines — the
player has no active task) still lands in the action log. -/
theorem C10_log_before_validation_witness :
    ∃ rest, (apply_work_task_tick (log_action c1_game "A" Action.work_task_tick)
        "A").action_history =
      c1_game.action_history ++
        (c1_game.tick_counter, "A", LogEntry.act Action.work_task_tick) :: rest :=
  (C10_log_before_validation c1_game "A" Action.work_task_tick).2 (by decide) _ rfl

end Amogus
